/-
Verification of the loqa-core runtime against its specification.

This file gives a shallow embedding, in Lean 4, of the parts of the Go
source that the checked claims are about:

* the skill host ABI function host_publish and the permission gate
  installed by the skill service (internal/skills/runtime/runtime.go and
  the skills service file);
* configuration validation (internal/config/config.go, validate);
* the voice router handlers (the router service file with the tts.done
  subscription: handleTranscript, handleLLMResponse, handleTTSDone);
* the STT frame handler / transcription scheduler
  (internal/stt/service.go) as a small transition system;
* the LLM chunk publisher (publishChunk and the per-request loop);
* the TTS synthesis loop (handleRequest / publishChunk, sequence
  numbering and the done-marker);
* the audit event store (Open, AppendSession, AppendEvent, Prune) over
  an explicit relational state, with the SQL statements of the source
  translated to list filters.

Go maps are modelled as association lists with unique keys, SQL tables
as lists of row structures, timestamps as integers (seconds), and bus /
telemetry side effects as explicit effect lists returned by the
handlers.  Where SQLite leaves an order unspecified (ORDER BY on a
column with ties), the model keeps every tied row; theorems about the
cap do not depend on the tie order.
-/
import Mathlib

/-! ## Skill host: host_publish (internal/skills/runtime/runtime.go) -/

/-- One skill binding as built by Service.addSkill: the granted
permission strings and the declared publish subjects of the manifest. -/
structure SkillBinding where
  permissions : List String
  publishSet : List String
deriving DecidableEq

/-- Return codes of host_publish (constants PublishOK,
PublishErrNotAllowed, PublishErrRuntime in runtime.go). -/
def PublishOK : Int := 0

def PublishErrNotAllowed : Int := 1

def PublishErrRuntime : Int := 2

/-- AllowPublish closure installed by Service.invoke: an error unless
both the bus:publish permission is granted and the subject is a literal
element of the binding's publish set. -/
def AllowPublish (b : SkillBinding) (subject : String) : Option String :=
  if !(b.permissions.contains "bus:publish") then
    some "missing permission bus:publish"
  else if !(b.publishSet.contains subject) then
    some "subject not declared in manifest"
  else
    none

/-- Observable side effects of one host_publish call: a bus publish
(binding.Publish succeeding) or an audit-event append
(binding.RecordAudit). -/
inductive HostEvent where
  | published (subject : String) (payload : List Nat)
  | audited (eventType : String)
deriving DecidableEq

/-- Result of one host_publish call: the i32 return code and the side
effects that occurred during the call. -/
structure HostPublishResult where
  code : Int
  events : List HostEvent
deriving DecidableEq

/-- hostPublishFn of runtime.go, for a call whose four stack arguments
decoded successfully.  The guest-memory reads are modelled by their
results: subjectRead is the read of the subject bytes, payloadRead the
read of the payload bytes (consulted only when payloadLen > 0), and
transportOK tells whether binding.Publish succeeds.  On the success
path the bus publish happens first and the skill.publish audit event is
recorded after it, mirroring the statement order of the source. -/
def hostPublishFn (b : SkillBinding) (subjectRead : Option String)
    (payloadLen : Nat) (payloadRead : Option (List Nat))
    (transportOK : Bool) : HostPublishResult :=
  match subjectRead with
  | none => ⟨PublishErrRuntime, []⟩
  | some subject =>
    match AllowPublish b subject with
    | some _ => ⟨PublishErrNotAllowed, []⟩
    | none =>
      match (if payloadLen > 0 then payloadRead else some []) with
      | none => ⟨PublishErrRuntime, []⟩
      | some payload =>
        if !transportOK then
          ⟨PublishErrRuntime, []⟩
        else
          ⟨PublishOK, [HostEvent.published subject payload,
                       HostEvent.audited "skill.publish"]⟩

/-! ## Configuration validation (internal/config/config.go) -/

structure HTTPConfig where
  bind : String
  port : Int
deriving DecidableEq

structure TelemetryConfig where
  logLevel : String
  otlpEndpoint : String
  prometheusBind : String
deriving DecidableEq

structure BusConfig where
  servers : List String
  connectTimeout : Int
deriving DecidableEq

structure NodeCapability where
  name : String
  tier : String
deriving DecidableEq

structure NodeConfig where
  id : String
  role : String
  heartbeatInterval : Int
  heartbeatTimeout : Int
  capabilities : List NodeCapability
deriving DecidableEq

structure EventStoreConfig where
  path : String
  retentionMode : String
  retentionDays : Int
  maxSessions : Int
deriving DecidableEq

structure STTConfig where
  enabled : Bool
  mode : String
  command : String
  sampleRate : Int
  channels : Int
  partialEveryMS : Int
  publishInterim : Bool
deriving DecidableEq

structure Config where
  runtimeName : String
  environment : String
  http : HTTPConfig
  telemetry : TelemetryConfig
  bus : BusConfig
  node : NodeConfig
  eventStore : EventStoreConfig
  stt : STTConfig
deriving DecidableEq

/-- validate of config.go: the first failing check produces the error;
none means the configuration is accepted. -/
def validate (cfg : Config) : Option String :=
  if cfg.runtimeName = "" then
    some "runtime_name must not be empty"
  else if cfg.http.port ≤ 0 ∨ 65535 < cfg.http.port then
    some "http.port must be between 1 and 65535"
  else if cfg.bus.servers = [] then
    some "bus.servers must not be empty"
  else if cfg.node.id = "" then
    some "node.id must not be empty"
  else if cfg.node.heartbeatInterval ≤ 0 then
    some "node.heartbeat_interval_ms must be positive"
  else if cfg.node.heartbeatTimeout ≤ cfg.node.heartbeatInterval then
    some "node.heartbeat_timeout_ms must be greater than heartbeat interval"
  else if cfg.node.capabilities = [] then
    some "node.capabilities must not be empty"
  else if cfg.eventStore.path = "" then
    some "event_store.path must not be empty"
  else if ¬ (cfg.eventStore.retentionMode = "ephemeral" ∨
             cfg.eventStore.retentionMode = "session" ∨
             cfg.eventStore.retentionMode = "persistent") then
    some "event_store.retention_mode must be one of ephemeral|session|persistent"
  else if cfg.eventStore.retentionDays < 0 then
    some "event_store.retention_days must be >= 0"
  else if cfg.telemetry.prometheusBind = "" then
    some "telemetry.prometheus_bind must not be empty"
  else if cfg.stt.enabled ∧ cfg.stt.sampleRate ≤ 0 then
    some "stt.sample_rate must be positive"
  else if cfg.stt.enabled ∧ cfg.stt.channels ≤ 0 then
    some "stt.channels must be positive"
  else if cfg.stt.enabled ∧ cfg.stt.mode = "exec" ∧ cfg.stt.command = "" then
    some "stt.command must be set when mode=exec"
  else
    none

/-- Claim C1: for every skill binding and every host_publish call whose
subject read succeeded, (i) if bus:publish is missing from the
permissions or the subject is not a declared publish subject, the call
returns code 1 and no bus publish occurs (and no audit event either);
(ii) if the permission is granted, the subject declared, the payload
readable and the transport succeeds, the call publishes and returns 0;
(iii) a skill.publish audit event is appended exactly in the success
case. -/
theorem claim_C1_host_publish_gate (b : SkillBinding) (subj : String)
    (payloadLen : Nat) (payloadRead : Option (List Nat)) (transportOK : Bool) :
    (("bus:publish" ∉ b.permissions ∨ subj ∉ b.publishSet) →
      (hostPublishFn b (some subj) payloadLen payloadRead transportOK).code
          = PublishErrNotAllowed ∧
      (hostPublishFn b (some subj) payloadLen payloadRead transportOK).events
          = [])
    ∧ (∀ pl, "bus:publish" ∈ b.permissions → subj ∈ b.publishSet →
        payloadRead = some pl → transportOK = true →
        (hostPublishFn b (some subj) payloadLen payloadRead transportOK).code
            = PublishOK ∧
        (hostPublishFn b (some subj) payloadLen payloadRead transportOK).events
            = [HostEvent.published subj (if payloadLen > 0 then pl else []),
               HostEvent.audited "skill.publish"])
    ∧ (HostEvent.audited "skill.publish"
          ∈ (hostPublishFn b (some subj) payloadLen payloadRead transportOK).events
        ↔ (hostPublishFn b (some subj) payloadLen payloadRead transportOK).code
          = PublishOK) := by
  refine ⟨?_, ?_, ?_⟩
  · intro h
    rcases h with h | h <;>
      by_cases hp : "bus:publish" ∈ b.permissions <;>
        simp_all [hostPublishFn, AllowPublish]
  · intro pl hperm hsubj hread htr
    subst hread htr
    by_cases hlen : 0 < payloadLen <;>
      simp [hostPublishFn, AllowPublish, hperm, hsubj, hlen]
  · by_cases hp : "bus:publish" ∈ b.permissions <;>
      by_cases hs : subj ∈ b.publishSet <;>
        by_cases hlen : 0 < payloadLen <;>
          rcases payloadRead with _ | pl <;>
            rcases transportOK with _ | _ <;>
              simp [hostPublishFn, AllowPublish, hp, hs, hlen, PublishOK,
                    PublishErrNotAllowed, PublishErrRuntime]

/-- Witness for claim C1 at a concrete binding: granted permission and a
declared subject publish with code 0; a binding without bus:publish is
denied with code 1 and no events. -/
theorem claim_C1_host_publish_gate_witness :
    (hostPublishFn ⟨["bus:publish"], ["light.on"]⟩ (some "light.on") 0
        (some []) true).code = PublishOK
    ∧ (hostPublishFn ⟨["bus:subscribe"], ["light.on"]⟩ (some "light.on") 0
        (some []) true).code = PublishErrNotAllowed
    ∧ (hostPublishFn ⟨["bus:subscribe"], ["light.on"]⟩ (some "light.on") 0
        (some []) true).events = [] := by
  refine ⟨?_, ?_, ?_⟩
  · exact ((claim_C1_host_publish_gate ⟨["bus:publish"], ["light.on"]⟩
      "light.on" 0 (some []) true).2.1 [] (by decide) (by decide) rfl rfl).1
  · exact ((claim_C1_host_publish_gate ⟨["bus:subscribe"], ["light.on"]⟩
      "light.on" 0 (some []) true).1 (Or.inl (by decide))).1
  · exact ((claim_C1_host_publish_gate ⟨["bus:subscribe"], ["light.on"]⟩
      "light.on" 0 (some []) true).1 (Or.inl (by decide))).2

/-- Claim C9: configuration validation rejects every configuration whose
heartbeat_timeout_ms does not strictly exceed heartbeat_interval_ms,
and accepts only configurations where the timeout strictly exceeds the
interval. -/
theorem claim_C9_heartbeat_validation (cfg : Config) :
    (cfg.node.heartbeatTimeout ≤ cfg.node.heartbeatInterval →
      validate cfg ≠ none)
    ∧ (validate cfg = none →
      cfg.node.heartbeatInterval < cfg.node.heartbeatTimeout) := by
  have key : cfg.node.heartbeatTimeout ≤ cfg.node.heartbeatInterval →
      validate cfg ≠ none := by
    intro hle hnone
    unfold validate at hnone
    repeat' (split at hnone <;> try exact Option.noConfusion hnone)
  refine ⟨key, ?_⟩
  intro hok
  by_contra hlt
  exact key (by omega) hok

/-- Witness for claim C9: the default-like configuration with interval
2000 and timeout 6000 passes the heartbeat direction, and the same
configuration with timeout 2000 is rejected. -/
theorem claim_C9_heartbeat_validation_witness :
    (validate
        { runtimeName := "loqa-runtime", environment := "development",
          http := { bind := "0.0.0.0", port := 8080 },
          telemetry := { logLevel := "info", otlpEndpoint := "",
                         prometheusBind := ":9091" },
          bus := { servers := ["nats://localhost:4222"], connectTimeout := 2000 },
          node := { id := "loqa-node-1", role := "runtime",
                    heartbeatInterval := 2000, heartbeatTimeout := 2000,
                    capabilities := [{ name := "runtime.core", tier := "balanced" }] },
          eventStore := { path := "./data/loqa-events.db",
                          retentionMode := "session", retentionDays := 30,
                          maxSessions := 10000 },
          stt := { enabled := false, mode := "mock", command := "",
                   sampleRate := 16000, channels := 1,
                   partialEveryMS := 800, publishInterim := false } } ≠ none) :=
  (claim_C9_heartbeat_validation _).1 (by decide)

/-! ## Protocol message shapes (internal/protocol/messages.go)

Wall-clock timestamp fields of the wire messages are omitted: the
source fills them with time.Now at marshalling time and never reads
them back.  The float64 confidence / temperature fields are likewise
omitted (they do not participate in any checked claim). -/

structure Transcript where
  sessionId : String
  text : String
  partialFlag : Bool
deriving DecidableEq

structure LLMRequest where
  sessionId : String
  prompt : String
  system : String
  tier : String
  maxTokens : Int
  traceId : String
deriving DecidableEq

structure LLMResponse where
  sessionId : String
  content : String
  partialFlag : Bool
  traceId : String
  promptTokens : Int
  completionTokens : Int
  latencyMS : Int
deriving DecidableEq

structure TTSRequest where
  sessionId : String
  text : String
  voice : String
  target : String
  traceId : String
deriving DecidableEq

structure AudioChunk where
  sessionId : String
  target : String
  sequence : Nat
  sampleRate : Int
  channels : Int
  pcm : List Nat
  final : Bool
deriving DecidableEq

structure TTSStatus where
  sessionId : String
  target : String
  completed : Bool
deriving DecidableEq

/-! ## Voice router (router service with the tts.done subscription)

The three bus handlers are modelled as pure functions from the current
session table and the decoded message to the new session table plus a
list of observable effects (bus publishes, span operations, latency
histogram samples).  The latency histogram sample value is the elapsed
time in milliseconds.  latencyEnabled mirrors the Service field set
when the histogram initialises. -/

structure RouterConfig where
  defaultTier : String
  defaultVoice : String
  target : String
deriving DecidableEq

/-- Router sessionState: prompt, chosen voice and tier, start time, and
an open span (identified here by the session identifier it was opened
for). -/
structure VoiceSession where
  lastPrompt : String
  voice : String
  tier : String
  started : Int
deriving DecidableEq

/-- The router's session table (Go map modelled as an association list
with unique keys). -/
structure RouterState where
  sessions : List (String × VoiceSession)
deriving DecidableEq

inductive RouterEffect where
  | publishLLM (req : LLMRequest)
  | publishTTS (req : TTSRequest)
  | spanStart (sessionId : String)
  | spanAddEvent (sessionId : String) (name : String)
  | spanEnd (sessionId : String)
  | recordLatency (valueMS : Int) (voice : String) (tier : String)
deriving DecidableEq

/-- Go map deletion: drop the entry with the given key. -/
def eraseSession (st : RouterState) (sid : String) : RouterState :=
  ⟨st.sessions.filter fun p => !(p.1 == sid)⟩

/-- handleTranscript: ignore empty text; otherwise open a span, store a
fresh VoiceSession under the session id (overwriting any previous one,
as Go map assignment does) and publish the LLM request. -/
def handleTranscript (cfg : RouterConfig) (now : Int) (st : RouterState)
    (t : Transcript) : RouterState × List RouterEffect :=
  if t.text = "" then (st, [])
  else
    (⟨(t.sessionId, ⟨t.text, cfg.defaultVoice, cfg.defaultTier, now⟩)
        :: (eraseSession st t.sessionId).sessions⟩,
     [RouterEffect.spanStart t.sessionId,
      RouterEffect.publishLLM ⟨t.sessionId, t.text, "", cfg.defaultTier, 0, ""⟩])

/-- handleLLMResponse: ignore empty content; look the session up
without deleting it; take the stored voice when non-empty, the default
voice otherwise; add a span event only for known sessions; publish the
TTS request in both cases. -/
def handleLLMResponse (cfg : RouterConfig) (st : RouterState)
    (resp : LLMResponse) : RouterState × List RouterEffect :=
  if resp.content = "" then (st, [])
  else
    let state? := st.sessions.lookup resp.sessionId
    let voice :=
      match state? with
      | some s => if !(s.voice == "") then s.voice else cfg.defaultVoice
      | none => cfg.defaultVoice
    let spanEffects :=
      match state? with
      | some _ => [RouterEffect.spanAddEvent resp.sessionId "llm.response.final"]
      | none => []
    (st, spanEffects ++
      [RouterEffect.publishTTS
        ⟨resp.sessionId, resp.content, voice, cfg.target, resp.traceId⟩])

/-- handleTTSDone: ignore non-completed statuses and unknown sessions;
for a known session delete it, add the tts.done span event, end the
span, and (when the histogram initialised) record now − started tagged
with the stored voice and tier. -/
def handleTTSDone (cfg : RouterConfig) (latencyEnabled : Bool) (now : Int)
    (st : RouterState) (status : TTSStatus) : RouterState × List RouterEffect :=
  if !status.completed then (st, [])
  else
    match st.sessions.lookup status.sessionId with
    | none => (st, [])
    | some s =>
      (eraseSession st status.sessionId,
       [RouterEffect.spanAddEvent status.sessionId "tts.done",
        RouterEffect.spanEnd status.sessionId] ++
       (if latencyEnabled
        then [RouterEffect.recordLatency (now - s.started) s.voice s.tier]
        else []))

/-- Latency histogram samples among a list of router effects. -/
def latencySamples (effects : List RouterEffect) : List (Int × String × String) :=
  effects.filterMap fun e =>
    match e with
    | RouterEffect.recordLatency v voice tier => some (v, voice, tier)
    | _ => none

theorem lookup_erase_self (l : List (String × α)) (sid : String) :
    List.lookup sid (l.filter fun p => !(p.1 == sid)) = none := by
  induction l with
  | nil => rfl
  | cons hd tl ih =>
    by_cases h : hd.1 = sid
    · simp [List.filter_cons, h, ih]
    · have h2 : (sid == hd.1) = false :=
        beq_eq_false_iff_ne.mpr fun hh => h hh.symm
      simp [List.filter_cons, List.lookup, h, h2, ih]

theorem lookup_erase_ne (l : List (String × α)) (sid sid' : String)
    (h : sid' ≠ sid) :
    List.lookup sid' (l.filter fun p => !(p.1 == sid)) = List.lookup sid' l := by
  induction l with
  | nil => rfl
  | cons hd tl ih =>
    by_cases h1 : hd.1 = sid
    · subst h1
      have hb : (sid' == hd.1) = false := beq_eq_false_iff_ne.mpr h
      simp [List.filter_cons, List.lookup, hb, ih]
    · by_cases h2 : hd.1 = sid'
      · subst h2
        simp [List.filter_cons, List.lookup, beq_iff_eq, h1]
      · have h3 : (sid' == hd.1) = false :=
          beq_eq_false_iff_ne.mpr fun hh => h2 hh.symm
        simp [List.filter_cons, List.lookup, beq_iff_eq, h1, h3, ih]

/-- Claim C2: on a tts.done with completed = true for a known session
(with the latency histogram initialised), the router deletes exactly
that VoiceSession (other sessions untouched), records exactly one
latency sample now − start tagged with the session's voice and tier,
and ends the span; replaying the same tts.done afterwards changes
nothing and records nothing. -/
theorem claim_C2_router_tts_done_closure (cfg : RouterConfig) (now now' : Int)
    (st : RouterState) (status : TTSStatus) (s : VoiceSession)
    (hc : status.completed = true)
    (hs : st.sessions.lookup status.sessionId = some s) :
    (handleTTSDone cfg true now st status).1.sessions.lookup status.sessionId
        = none
    ∧ (∀ sid, sid ≠ status.sessionId →
        (handleTTSDone cfg true now st status).1.sessions.lookup sid
          = st.sessions.lookup sid)
    ∧ latencySamples (handleTTSDone cfg true now st status).2
        = [(now - s.started, s.voice, s.tier)]
    ∧ RouterEffect.spanEnd status.sessionId
        ∈ (handleTTSDone cfg true now st status).2
    ∧ handleTTSDone cfg true now' (handleTTSDone cfg true now st status).1 status
        = ((handleTTSDone cfg true now st status).1, []) := by
  refine ⟨?_, ?_, ?_, ?_, ?_⟩
  · simp [handleTTSDone, hc, hs, eraseSession, lookup_erase_self]
  · intro sid hne
    simp [handleTTSDone, hc, hs, eraseSession, lookup_erase_ne _ _ _ hne]
  · simp [handleTTSDone, hc, hs, latencySamples]
  · simp [handleTTSDone, hc, hs]
  · simp [handleTTSDone, hc, hs, eraseSession, lookup_erase_self]

/-- Witness for claim C2 at a concrete router state with one session. -/
theorem claim_C2_router_tts_done_closure_witness :
    (handleTTSDone ⟨"balanced", "voice-a", "room"⟩ true 1500
        ⟨[("s1", ⟨"hi", "voice-a", "balanced", 1000⟩)]⟩
        ⟨"s1", "room", true⟩).1.sessions.lookup "s1" = none
    ∧ latencySamples (handleTTSDone ⟨"balanced", "voice-a", "room"⟩ true 1500
        ⟨[("s1", ⟨"hi", "voice-a", "balanced", 1000⟩)]⟩
        ⟨"s1", "room", true⟩).2 = [(500, "voice-a", "balanced")] := by
  refine ⟨?_, ?_⟩
  · exact (claim_C2_router_tts_done_closure ⟨"balanced", "voice-a", "room"⟩
      1500 1500 ⟨[("s1", ⟨"hi", "voice-a", "balanced", 1000⟩)]⟩
      ⟨"s1", "room", true⟩ ⟨"hi", "voice-a", "balanced", 1000⟩ rfl (by decide)).1
  · exact (claim_C2_router_tts_done_closure ⟨"balanced", "voice-a", "room"⟩
      1500 1500 ⟨[("s1", ⟨"hi", "voice-a", "balanced", 1000⟩)]⟩
      ⟨"s1", "room", true⟩ ⟨"hi", "voice-a", "balanced", 1000⟩ rfl (by decide)).2.2.1

/-- Counterexample to claim C3 as stated: an nlu.response.final with
non-empty content for a session unknown to the router is not ignored —
the router publishes a TTS request (with the default voice) even though
no VoiceSession exists. -/
theorem counter_C3_unknown_session_still_publishes :
    (RouterState.mk []).sessions.lookup "s1" = none
    ∧ (handleLLMResponse ⟨"balanced", "voice-a", "room"⟩ ⟨[]⟩
          ⟨"s1", "hello", false, "", 0, 0, 0⟩).2
        = [RouterEffect.publishTTS ⟨"s1", "hello", "voice-a", "room", ""⟩] := by
  refine ⟨rfl, ?_⟩
  decide

/-- Claim C3 (amended): empty-text finals, empty-content completions,
non-completed tts.done and tts.done for unknown sessions are ignored
(no state change, no effects); but an nlu.response.final with non-empty
content for an unknown session, while changing no state, still
publishes a TTS request using the default voice and configured
target. -/
theorem claim_C3_router_drop_rules (cfg : RouterConfig)
    (latencyEnabled : Bool) (now : Int) (st : RouterState) (t : Transcript)
    (resp : LLMResponse) (status : TTSStatus) :
    (t.text = "" → handleTranscript cfg now st t = (st, []))
    ∧ (resp.content = "" → handleLLMResponse cfg st resp = (st, []))
    ∧ (status.completed = true → st.sessions.lookup status.sessionId = none →
        handleTTSDone cfg latencyEnabled now st status = (st, []))
    ∧ (status.completed = false →
        handleTTSDone cfg latencyEnabled now st status = (st, []))
    ∧ (st.sessions.lookup resp.sessionId = none → ¬(resp.content = "") →
        (handleLLMResponse cfg st resp).1 = st
        ∧ (handleLLMResponse cfg st resp).2
          = [RouterEffect.publishTTS
              ⟨resp.sessionId, resp.content, cfg.defaultVoice, cfg.target,
               resp.traceId⟩]) := by
  refine ⟨?_, ?_, ?_, ?_, ?_⟩
  · intro h; simp [handleTranscript, h]
  · intro h; simp [handleLLMResponse, h]
  · intro hc hl; simp [handleTTSDone, hc, hl]
  · intro hc; simp [handleTTSDone, hc]
  · intro hl hne
    constructor <;> simp [handleLLMResponse, hl, hne]

/-- Witness for claim C3 at concrete inputs: empty transcript dropped,
unknown tts.done dropped, and the unknown-session completion publish. -/
theorem claim_C3_router_drop_rules_witness :
    handleTranscript ⟨"balanced", "voice-a", "room"⟩ 0 ⟨[]⟩ ⟨"s1", "", false⟩
        = (⟨[]⟩, [])
    ∧ handleTTSDone ⟨"balanced", "voice-a", "room"⟩ true 0 ⟨[]⟩
        ⟨"s1", "", true⟩ = (⟨[]⟩, [])
    ∧ (handleLLMResponse ⟨"balanced", "voice-a", "room"⟩ ⟨[]⟩
          ⟨"s1", "hi", false, "", 0, 0, 0⟩).1 = ⟨[]⟩ := by
  refine ⟨?_, ?_, ?_⟩
  · exact (claim_C3_router_drop_rules ⟨"balanced", "voice-a", "room"⟩ true 0
      ⟨[]⟩ ⟨"s1", "", false⟩ ⟨"s1", "hi", false, "", 0, 0, 0⟩
      ⟨"s1", "", true⟩).1 rfl
  · exact (claim_C3_router_drop_rules ⟨"balanced", "voice-a", "room"⟩ true 0
      ⟨[]⟩ ⟨"s1", "", false⟩ ⟨"s1", "hi", false, "", 0, 0, 0⟩
      ⟨"s1", "", true⟩).2.2.1 rfl rfl
  · exact ((claim_C3_router_drop_rules ⟨"balanced", "voice-a", "room"⟩ true 0
      ⟨[]⟩ ⟨"s1", "", false⟩ ⟨"s1", "hi", false, "", 0, 0, 0⟩
      ⟨"s1", "", true⟩).2.2.2.2 rfl (by decide)).1

/-! ## LLM service (publishChunk and the per-request stream loop)

The generator contract delivers a finite sequence of completion
fragments to the consumer callback; the callback is publishChunk.  The
model maps the fragment list to the list of (subject, message) publishes
that reach the bus. -/

/-- Completion fragment (llm.Chunk).  The time.Duration latency is
modelled in milliseconds, as the source publishes
chunk.Latency.Milliseconds(). -/
structure Chunk where
  sessionId : String
  content : String
  partialFlag : Bool
  promptTokens : Int
  completionTokens : Int
  latencyMS : Int
  traceId : String
deriving DecidableEq

/-- The LLMResponse that publishChunk marshals for a fragment. -/
def llmResponseOf (c : Chunk) : LLMResponse :=
  ⟨c.sessionId, c.content, c.partialFlag, c.traceId, c.promptTokens,
   c.completionTokens, c.latencyMS⟩

/-- publishChunk of the LLM service: empty content publishes nothing
(returns nil to the generator); otherwise the message goes to
nlu.response.partial when the fragment is partial and to
nlu.response.final when it is not. -/
def publishChunk (c : Chunk) : Option (String × LLMResponse) :=
  if c.content = "" then none
  else
    some ((if c.partialFlag then "nlu.response.partial"
           else "nlu.response.final"),
          llmResponseOf c)

/-- The publishes produced by one handled nlu.request whose generator
yields the given fragments (each fragment is handed to publishChunk in
order). -/
def handleRequestLLM (chunks : List Chunk) : List (String × LLMResponse) :=
  chunks.filterMap publishChunk

/-- Claim C7: for every fragment stream, empty-content fragments are
dropped, and every remaining fragment is published — in stream order —
on nlu.response.partial when partial and on nlu.response.final when
final. -/
theorem claim_C7_llm_fragment_routing (chunks : List Chunk) :
    handleRequestLLM chunks
      = (chunks.filter fun c => !(c.content == "")).map
          (fun c => ((if c.partialFlag then "nlu.response.partial"
                      else "nlu.response.final"),
                     llmResponseOf c)) := by
  induction chunks with
  | nil => rfl
  | cons hd tl ih =>
    by_cases h : hd.content = "" <;>
      simp [handleRequestLLM, publishChunk, List.filterMap_cons,
            List.filter_cons, h, ih] at *
    · exact ih
    · exact ih

/-! ## TTS service (handleRequest loop and publishChunk)

The synthesis loop assigns consecutive sequence numbers starting at 0
to the chunks received from the synthesizer channel, publishes each on
tts.audio, and after the audio packet of a chunk whose final flag is
set publishes a tts.done status with completed = true. -/

/-- tts.SynthChunk (the PCM bytes are abstracted). -/
structure SynthChunk where
  sessionId : String
  sequence : Nat
  sampleRate : Int
  channels : Int
  pcm : List Nat
  final : Bool
deriving DecidableEq

/-- Bus effects of the TTS service. -/
inductive TTSEffect where
  | audio (chunk : AudioChunk)
  | done (status : TTSStatus)
deriving DecidableEq

/-- The AudioChunk packet marshalled by publishChunk: session and
target from the request, the rest from the synthesizer chunk. -/
def audioPacket (req : TTSRequest) (c : SynthChunk) : AudioChunk :=
  ⟨req.sessionId, req.target, c.sequence, c.sampleRate, c.channels,
   c.pcm, c.final⟩

/-- The TTSStatus marshalled after a final chunk: completed is always
true. -/
def doneStatus (req : TTSRequest) : TTSStatus :=
  ⟨req.sessionId, req.target, true⟩

/-- publishChunk of the TTS service: publish the audio packet, then —
only when the chunk is final — publish the done status. -/
def publishChunkTTS (req : TTSRequest) (c : SynthChunk) : List TTSEffect :=
  TTSEffect.audio (audioPacket req c)
    :: (if c.final then [TTSEffect.done (doneStatus req)] else [])

/-- The receive loop of handleRequest: each chunk taken from the
synthesizer channel gets the current sequence number, the counter is
incremented, and publishChunk runs. -/
def ttsLoop (req : TTSRequest) (sequence : Nat) :
    List SynthChunk → List TTSEffect
  | [] => []
  | c :: rest =>
      publishChunkTTS req { c with sequence := sequence }
        ++ ttsLoop req (sequence + 1) rest

/-- handleRequest of the TTS service, for a synthesis that yields the
given chunk list: the sequence counter starts at 0. -/
def handleRequestTTS (req : TTSRequest) (chunks : List SynthChunk) :
    List TTSEffect :=
  ttsLoop req 0 chunks

/-- Sequence numbers of the audio packets among TTS effects. -/
def audioSequences (effects : List TTSEffect) : List Nat :=
  effects.filterMap fun e =>
    match e with
    | TTSEffect.audio a => some a.sequence
    | _ => none

/-- tts.done statuses among TTS effects. -/
def doneMessages (effects : List TTSEffect) : List TTSStatus :=
  effects.filterMap fun e =>
    match e with
    | TTSEffect.done st => some st
    | _ => none

theorem ttsLoop_enumFrom (req : TTSRequest) (n : Nat)
    (chunks : List SynthChunk) :
    ttsLoop req n chunks
      = (List.enumFrom n chunks).bind (fun p =>
          TTSEffect.audio (audioPacket req { p.2 with sequence := p.1 })
            :: (if p.2.final then [TTSEffect.done (doneStatus req)] else [])) := by
  induction chunks generalizing n with
  | nil => rfl
  | cons hd tl ih =>
    simp [ttsLoop, List.enumFrom, publishChunkTTS, ih]

theorem audioSequences_ttsLoop (req : TTSRequest) (n : Nat)
    (chunks : List SynthChunk) :
    audioSequences (ttsLoop req n chunks) = List.range' n chunks.length := by
  induction chunks generalizing n with
  | nil => rfl
  | cons hd tl ih =>
    cases hf : hd.final <;>
      simp [ttsLoop, publishChunkTTS, audioSequences, List.filterMap_append,
            hf, audioPacket, List.range'] at *
    · exact ih n.succ
    · exact ih n.succ

theorem doneMessages_ttsLoop (req : TTSRequest) (n : Nat)
    (chunks : List SynthChunk) :
    doneMessages (ttsLoop req n chunks)
      = ((chunks.filter fun c => c.final).map fun _ => doneStatus req) := by
  induction chunks generalizing n with
  | nil => rfl
  | cons hd tl ih =>
    cases hf : hd.final <;>
      simp [ttsLoop, publishChunkTTS, doneMessages, List.filterMap_append,
            List.filter_cons, hf] at *
    · exact ih n.succ
    · exact ih n.succ

/-- Claim C8: for every TTS request and synthesizer chunk stream, the
effects are exactly, in order, one tts.audio packet per chunk —
sequence-numbered consecutively from 0 — with a tts.done status
(completed = true) immediately after the audio packet of each final
chunk, and one such done status per final chunk. -/
theorem claim_C8_tts_sequencing_and_done (req : TTSRequest)
    (chunks : List SynthChunk) :
    handleRequestTTS req chunks
      = (chunks.enum).bind (fun p =>
          TTSEffect.audio (audioPacket req { p.2 with sequence := p.1 })
            :: (if p.2.final then [TTSEffect.done (doneStatus req)] else []))
    ∧ audioSequences (handleRequestTTS req chunks) = List.range chunks.length
    ∧ doneMessages (handleRequestTTS req chunks)
        = ((chunks.filter fun c => c.final).map fun _ =>
            TTSStatus.mk req.sessionId req.target true) := by
  refine ⟨?_, ?_, ?_⟩
  · simpa [List.enum] using ttsLoop_enumFrom req 0 chunks
  · simpa [List.range_eq_range'] using audioSequences_ttsLoop req 0 chunks
  · simpa [doneStatus] using doneMessages_ttsLoop req 0 chunks

/-! ## STT service (internal/stt/service.go)

Per-session scheduling discipline.  One session's state is modelled
(the Go session table is keyed by session id and each key's state
evolves independently under the per-service mutex).  The active field
is an observer counting currently running recognizer calls for the
session: scheduleTranscription increments it exactly when it starts a
worker, and a completion decrements it.  Each transition of the step
relation is one critical section of the source. -/

/-- stt.sessionState. -/
structure STTSessionState where
  buffer : List Nat
  lastPartial : Option Int
  inflight : Bool
  pendingFinal : Bool
deriving DecidableEq

/-- One session's slot in the STT service plus the running-recognizer
counter. -/
structure STTState where
  session : Option STTSessionState
  active : Nat
deriving DecidableEq

/-- scheduleTranscription: no session — nothing; in flight — only mark
pendingFinal when the request is final; otherwise mark in flight and
start a recognizer call (the returned Bool tells whether a call
started). -/
def scheduleTranscription (final : Bool) (st : STTState) : STTState × Bool :=
  match st.session with
  | none => (st, false)
  | some s =>
    if s.inflight then
      ({ st with session := some { s with pendingFinal := s.pendingFinal || final } },
       false)
    else
      ({ st with session := some { s with inflight := true },
                 active := st.active + 1 },
       true)

/-- shouldSchedulePartial: false when no session, when in flight, or
when the partial interval has not elapsed; the first partial and every
due partial update lastPartial and return true. -/
def shouldSchedulePartial (cfg : STTConfig) (now : Int) (st : STTState) :
    STTState × Bool :=
  match st.session with
  | none => (st, false)
  | some s =>
    if s.inflight then (st, false)
    else
      match s.lastPartial with
      | none => ({ st with session := some { s with lastPartial := some now } }, true)
      | some lp =>
        if cfg.partialEveryMS ≤ 0 then (st, false)
        else if cfg.partialEveryMS ≤ now - lp then
          ({ st with session := some { s with lastPartial := some now } }, true)
        else (st, false)

/-- Frame arrival, first critical section of handleFrame: create the
session state if absent and append the PCM bytes. -/
def appendFrame (pcm : List Nat) (st : STTState) : STTState :=
  match st.session with
  | none =>
    { st with session := some { buffer := pcm, lastPartial := none,
                                inflight := false, pendingFinal := false } }
  | some s => { st with session := some { s with buffer := s.buffer ++ pcm } }

/-- The interim branch of handleFrame: consult shouldSchedulePartial
and start a partial transcription when it says so. -/
def maybeSchedulePartial (cfg : STTConfig) (now : Int) (st : STTState) :
    STTState :=
  let p := shouldSchedulePartial cfg now st
  if p.2 then (scheduleTranscription false p.1).1 else p.1

/-- handleFrame: append, maybe schedule a partial (when interim
publishing is on and the frame is not final), and schedule a final
transcription when the frame is final. -/
def handleFrame (cfg : STTConfig) (now : Int) (pcm : List Nat) (final : Bool)
    (st : STTState) : STTState :=
  let st1 := appendFrame pcm st
  let st2 := if cfg.publishInterim && !final then maybeSchedulePartial cfg now st1
             else st1
  if final then (scheduleTranscription true st2).1 else st2

/-- Completion critical section of the transcription worker: the
recognizer call ends (active decreases), inflight clears, a partial
completion refreshes lastPartial, a final completion removes the
session.  The returned Bool is the pendingFinal-and-not-final condition
on which the worker immediately schedules a follow-up final
transcription. -/
def completeTranscription (final : Bool) (now : Int) (st : STTState) :
    STTState × Bool :=
  let stDec : STTState := { st with active := st.active - 1 }
  match st.session with
  | none => (stDec, false)
  | some s =>
    (if final then { stDec with session := none }
     else { stDec with session := some { s with inflight := false,
                                                lastPartial := some now } },
     s.pendingFinal && !final)

/-- Interleaving semantics for one session: frame arrivals, follow-up
final scheduling (the call the worker makes after a partial completes
with pendingFinal set), and completions of a running recognizer call. -/
inductive STTStep (cfg : STTConfig) : STTState → STTState → Prop where
  | frame (st : STTState) (now : Int) (pcm : List Nat) (final : Bool) :
      STTStep cfg st (handleFrame cfg now pcm final st)
  | followup (st : STTState) :
      STTStep cfg st (scheduleTranscription true st).1
  | complete (st : STTState) (final : Bool) (now : Int) (h : 0 < st.active) :
      STTStep cfg st (completeTranscription final now st).1

/-- The service starts with no state for the session. -/
def sttInit : STTState := ⟨none, 0⟩

/-- The serialization invariant: a recognizer call is running exactly
when the session exists and is marked in flight. -/
def sttInv (st : STTState) : Prop :=
  st.active = match st.session with
              | none => 0
              | some s => if s.inflight then 1 else 0

theorem sttInv_schedule (final : Bool) (st : STTState) (h : sttInv st) :
    sttInv (scheduleTranscription final st).1 := by
  unfold sttInv at *
  cases hs : st.session with
  | none => simp [scheduleTranscription, hs]; simpa [hs] using h
  | some s =>
    simp only [hs] at h
    by_cases hi : s.inflight <;>
      simp [scheduleTranscription, hs, hi] <;> simp [hi] at h <;> omega

theorem sttInv_shouldPartial (cfg : STTConfig) (now : Int) (st : STTState)
    (h : sttInv st) : sttInv (shouldSchedulePartial cfg now st).1 := by
  unfold sttInv at *
  cases hs : st.session with
  | none => simp [shouldSchedulePartial, hs]; simpa [hs] using h
  | some s =>
    simp only [hs] at h
    by_cases hi : s.inflight
    · simpa [shouldSchedulePartial, hs, hi] using h
    · cases hlp : s.lastPartial with
      | none => simpa [shouldSchedulePartial, hs, hi, hlp] using h
      | some lp =>
        by_cases h1 : cfg.partialEveryMS ≤ 0
        · simpa [shouldSchedulePartial, hs, hi, hlp, h1] using h
        · by_cases h2 : cfg.partialEveryMS ≤ now - lp <;>
            simpa [shouldSchedulePartial, hs, hi, hlp, h1, h2] using h

theorem sttInv_append (pcm : List Nat) (st : STTState) (h : sttInv st) :
    sttInv (appendFrame pcm st) := by
  unfold sttInv at *
  cases hs : st.session with
  | none => simp [appendFrame, hs]; simpa [hs] using h
  | some s =>
    simp only [hs] at h
    simp [appendFrame, hs, h]

theorem sttInv_maybePartial (cfg : STTConfig) (now : Int) (st : STTState)
    (h : sttInv st) : sttInv (maybeSchedulePartial cfg now st) := by
  unfold maybeSchedulePartial
  by_cases hp : (shouldSchedulePartial cfg now st).2
  · simp only [hp, if_true]
    exact sttInv_schedule false _ (sttInv_shouldPartial cfg now st h)
  · simp only [hp]
    simpa using sttInv_shouldPartial cfg now st h

theorem sttInv_frame (cfg : STTConfig) (now : Int) (pcm : List Nat)
    (final : Bool) (st : STTState) (h : sttInv st) :
    sttInv (handleFrame cfg now pcm final st) := by
  have h1 := sttInv_append pcm st h
  cases final with
  | false =>
    by_cases hp : cfg.publishInterim <;> simp [handleFrame, hp]
    · exact sttInv_maybePartial cfg now _ h1
    · exact h1
  | true =>
    simp only [handleFrame, Bool.not_true, Bool.and_false, Bool.false_eq_true,
      if_false, if_true]
    exact sttInv_schedule true _ h1

theorem sttInv_complete (final : Bool) (now : Int) (st : STTState)
    (h : sttInv st) (ha : 0 < st.active) :
    sttInv (completeTranscription final now st).1 := by
  unfold sttInv at *
  cases hs : st.session with
  | none => simp only [hs] at h; omega
  | some s =>
    simp only [hs] at h
    by_cases hi : s.inflight
    · simp only [hi, if_true] at h
      cases hf : final <;>
        simp [completeTranscription, hs, hf, h]
    · simp only [hi, if_false, Bool.false_eq_true] at h; omega

theorem sttInv_step (cfg : STTConfig) (st st' : STTState)
    (hstep : STTStep cfg st st') (h : sttInv st) : sttInv st' := by
  cases hstep with
  | frame now pcm final => exact sttInv_frame cfg now pcm final st h
  | followup => exact sttInv_schedule true st h
  | complete final now ha => exact sttInv_complete final now st h ha

theorem sttInv_reach (cfg : STTConfig) (st : STTState)
    (h : Relation.ReflTransGen (STTStep cfg) sttInit st) : sttInv st := by
  induction h with
  | refl => rfl
  | tail _ hstep ih => exact sttInv_step cfg _ _ hstep ih

/-- Claim C6: in every reachable state of a session, at most one
recognizer call is running (serialization); a final request arriving
while a transcription is in flight only sets pendingFinal (it starts no
second call); and when a partial transcription completes with
pendingFinal set, the worker immediately requests a follow-up final
transcription. -/
theorem claim_C6_stt_serialization (cfg : STTConfig) (st : STTState)
    (h : Relation.ReflTransGen (STTStep cfg) sttInit st) :
    st.active ≤ 1
    ∧ (∀ s, st.session = some s → s.inflight = true →
        (scheduleTranscription true st).1
            = { st with session := some { s with pendingFinal := true } }
        ∧ (scheduleTranscription true st).2 = false)
    ∧ (∀ s now, st.session = some s → s.pendingFinal = true →
        (completeTranscription false now st).2 = true) := by
  refine ⟨?_, ?_, ?_⟩
  · have hinv := sttInv_reach cfg st h
    unfold sttInv at hinv
    cases hs : st.session with
    | none => simp only [hs] at hinv; omega
    | some s =>
      simp only [hs] at hinv
      by_cases hi : s.inflight <;> simp [hi] at hinv <;> omega
  · intro s hs hi
    constructor <;> simp [scheduleTranscription, hs, hi]
  · intro s now hs hp
    simp [completeTranscription, hs, hp]

/-- Witness for claim C6: after one final frame from the initial state,
at most one recognizer call runs. -/
theorem claim_C6_stt_serialization_witness :
    (handleFrame ⟨true, "mock", "", 16000, 1, 800, true⟩ 0 [0] true
        sttInit).active ≤ 1 :=
  (claim_C6_stt_serialization ⟨true, "mock", "", 16000, 1, 800, true⟩ _
    (Relation.ReflTransGen.single
      (STTStep.frame sttInit 0 [0] true))).1

/-! ## Audit event store (eventstore Open / AppendSession / AppendEvent /
Prune)

The two SQLite tables are lists of row structures; AUTOINCREMENT is the
nextEventId counter; timestamps are integer seconds and the
retention-days cutoff is now − retention_days · 86400.  The SQL DELETE
statements of Prune translate to list filters; ON DELETE CASCADE keeps
only events whose session still exists.  For the max_sessions statement
(ORDER BY created_at DESC LIMIT -1 OFFSET max) a session is kept when
fewer than max sessions have a strictly newer created_at — SQLite
leaves the order among equal timestamps unspecified, and this model
keeps every tied row. -/

/-- One row of the sessions table. -/
structure SessionRow where
  sessionId : String
  actorId : String
  privacyScope : String
  createdAt : Int
deriving DecidableEq

/-- One row of the events table. -/
structure EventRow where
  id : Nat
  sessionId : String
  traceId : String
  actorId : String
  eventType : String
  payload : String
  privacyScope : String
  createdAt : Int
deriving DecidableEq

/-- The persisted store contents plus the AUTOINCREMENT counter. -/
structure StoreState where
  sessions : List SessionRow
  events : List EventRow
  nextEventId : Nat
deriving DecidableEq

/-- eventstore.Event as supplied by callers of AppendEvent: createdAt
is none when the caller leaves the Go zero value (the store then fills
in the clock). -/
structure EventInput where
  sessionId : String
  traceId : String
  actorId : String
  eventType : String
  payload : String
  privacyScope : String
  createdAt : Option Int
deriving DecidableEq

/-- Whether a session row with the given id exists. -/
def sessionLive (ss : List SessionRow) (sid : String) : Bool :=
  ss.any fun r => r.sessionId == sid

/-- ON DELETE CASCADE: keep only events whose session still exists. -/
def cascadeEvents (ss : List SessionRow) (evs : List EventRow) :
    List EventRow :=
  evs.filter fun e => sessionLive ss e.sessionId

/-- The retention cutoff: now − retention_days · 24h, in seconds. -/
def pruneCutoff (cfg : EventStoreConfig) (now : Int) : Int :=
  now - cfg.retentionDays * 86400

/-- The retention-days step of Prune: DELETE FROM events WHERE
created_at < cutoff, then DELETE FROM sessions WHERE created_at <
cutoff (cascading to the deleted sessions' remaining events). -/
def pruneByDays (cutoff : Int) (st : StoreState) : StoreState :=
  let evs1 := st.events.filter fun e => decide (cutoff ≤ e.createdAt)
  let ss1 := st.sessions.filter fun r => decide (cutoff ≤ r.createdAt)
  { st with sessions := ss1, events := cascadeEvents ss1 evs1 }

/-- The kept-by-cap predicate of the max_sessions DELETE: a session
survives when fewer than maxSessions sessions are strictly newer. -/
def keptByCap (maxSessions : Int) (ss : List SessionRow) (r : SessionRow) :
    Bool :=
  decide (((ss.filter fun x => decide (r.createdAt < x.createdAt)).length : Int)
    < maxSessions)

/-- The max_sessions step of Prune (cascading to events). -/
def pruneByCap (maxSessions : Int) (st : StoreState) : StoreState :=
  let kept := st.sessions.filter (keptByCap maxSessions st.sessions)
  { st with sessions := kept, events := cascadeEvents kept st.events }

/-- Prune of store.go: a no-op for the ephemeral store and for any
retention mode other than persistent or session; otherwise the
retention-days step runs when retention_days > 0 and the max_sessions
step runs when max_sessions > 0. -/
def pruneStore (cfg : EventStoreConfig) (now : Int) (st : StoreState) :
    StoreState :=
  if cfg.retentionMode == "ephemeral" then st
  else if !(cfg.retentionMode == "persistent")
        && !(cfg.retentionMode == "session") then st
  else
    let st1 := if 0 < cfg.retentionDays then pruneByDays (pruneCutoff cfg now) st
               else st
    if 0 < cfg.maxSessions then pruneByCap cfg.maxSessions st1 else st1

/-- Open of store.go, restricted to its effect on persisted contents:
the ephemeral store touches no storage; any other mode creates the
schema (idempotent), optionally vacuums (no data change), and calls
Prune. -/
def openStore (cfg : EventStoreConfig) (now : Int) (st : StoreState) :
    StoreState :=
  if cfg.retentionMode == "ephemeral" then st else pruneStore cfg now st

/-- The ON CONFLICT DO UPDATE row function of AppendSession: only
actor_id and privacy_scope change; created_at is untouched. -/
def updateSessionRow (sid actor priv : String) (r : SessionRow) :
    SessionRow :=
  if r.sessionId == sid then { r with actorId := actor, privacyScope := priv }
  else r

/-- AppendSession of store.go: a no-op for the ephemeral store; an
upsert otherwise — insert with created_at = clock when the id is new,
update of actor_id and privacy_scope when it exists. -/
def AppendSession (cfg : EventStoreConfig) (now : Int) (st : StoreState)
    (sid actor priv : String) : StoreState :=
  if cfg.retentionMode == "ephemeral" then st
  else if sessionLive st.sessions sid then
    { st with sessions := st.sessions.map (updateSessionRow sid actor priv) }
  else
    { st with sessions := st.sessions ++ [⟨sid, actor, priv, now⟩] }

/-- AppendEvent of store.go: a no-op for the ephemeral store; otherwise
the insert succeeds when the referenced session exists (the foreign key
is enforced) and fills created_at with the clock when absent. -/
def AppendEvent (cfg : EventStoreConfig) (now : Int) (st : StoreState)
    (evt : EventInput) : Option StoreState :=
  if cfg.retentionMode == "ephemeral" then some st
  else if sessionLive st.sessions evt.sessionId then
    some { st with
      events := st.events
        ++ [⟨st.nextEventId, evt.sessionId, evt.traceId, evt.actorId,
             evt.eventType, evt.payload, evt.privacyScope,
             evt.createdAt.getD now⟩],
      nextEventId := st.nextEventId + 1 }
  else none

/-- Counterexample to claim C4 as stated: in retention mode "session"
with retention_days = 1, opening the store at a time two days after a
persisted session was created deletes that session — pruning is not
restricted to "persistent" mode. -/
theorem counter_C4_session_mode_prunes :
    (StoreState.mk [⟨"old", "a", "p", 0⟩] [] 0).sessions ≠ []
    ∧ (openStore ⟨"d.db", "session", 1, 0⟩ 172800
        (StoreState.mk [⟨"old", "a", "p", 0⟩] [] 0)).sessions = [] := by
  refine ⟨?_, ?_⟩ <;> decide

/-- Counterexample to claim C5 as stated: with retention_days = 1 and a
session created inside the window holding an event whose own created_at
lies before the cutoff, Prune retains the session but deletes that
event — the events DELETE filters on the event's own timestamp, not
only through the session cascade. -/
theorem counter_C5_event_deleted_under_live_session :
    (pruneStore ⟨"d.db", "persistent", 1, 0⟩ 172800
        (StoreState.mk [⟨"s", "a", "p", 100000⟩]
          [⟨0, "s", "", "", "note", "", "", 10⟩] 1)).sessions
      = [⟨"s", "a", "p", 100000⟩]
    ∧ (StoreState.mk [⟨"s", "a", "p", 100000⟩]
          [⟨0, "s", "", "", "note", "", "", 10⟩] 1).events ≠ []
    ∧ (pruneStore ⟨"d.db", "persistent", 1, 0⟩ 172800
        (StoreState.mk [⟨"s", "a", "p", 100000⟩]
          [⟨0, "s", "", "", "note", "", "", 10⟩] 1)).events = [] := by
  refine ⟨?_, ?_, ?_⟩ <;> decide

theorem filter_filter_comb {α : Type} (l : List α) (p q : α → Bool) :
    (l.filter p).filter q = l.filter fun x => p x && q x := by
  induction l with
  | nil => rfl
  | cons hd tl ih =>
    by_cases hp : p hd = true <;> by_cases hq : q hd = true <;>
      simp [List.filter_cons, hp, hq, ih]

theorem filter_map_congr {α : Type} (l : List α) (f : α → α) (p q : α → Bool)
    (h : ∀ x, p (f x) = q x) :
    (l.map f).filter p = (l.filter q).map f := by
  induction l with
  | nil => rfl
  | cons hd tl ih =>
    by_cases hq : q hd = true <;>
      simp [List.map_cons, List.filter_cons, h hd, hq, ih]

theorem sessionLive_filter_true (ss : List SessionRow) (p : SessionRow → Bool)
    (sid : String) (h : sessionLive (ss.filter p) sid = true) :
    sessionLive ss sid = true := by
  unfold sessionLive at *
  simp only [List.any_eq_true] at *
  obtain ⟨r, hr, hh⟩ := h
  exact ⟨r, (List.mem_filter.mp hr).1, hh⟩

theorem sessionLive_map_preserve (ss : List SessionRow)
    (f : SessionRow → SessionRow) (sid : String)
    (hf : ∀ r, (f r).sessionId = r.sessionId) :
    sessionLive (ss.map f) sid = sessionLive ss sid := by
  induction ss with
  | nil => rfl
  | cons hd tl ih =>
    unfold sessionLive at *
    simp only [List.map_cons, List.any_cons, hf hd, ih]

theorem updateSessionRow_fields (sid actor priv : String) (r : SessionRow) :
    (updateSessionRow sid actor priv r).sessionId = r.sessionId
    ∧ (updateSessionRow sid actor priv r).createdAt = r.createdAt := by
  by_cases h : (r.sessionId == sid) = true <;>
    simp [updateSessionRow, h]

/-- Claim C4 (amended): every appended session and event is persisted
in "session" mode, but automatic pruning is not restricted to
"persistent" mode — Prune behaves identically in "session" and
"persistent" mode (and Open invokes it in both); only when
retention_days ≤ 0 and max_sessions ≤ 0 do Prune and Open leave the
persisted contents untouched in "session" mode. -/
theorem claim_C4_session_mode_retention (cfg : EventStoreConfig) (now : Int)
    (st : StoreState) (sid actor priv : String) (evt : EventInput) :
    pruneStore { cfg with retentionMode := "session" } now st
        = pruneStore { cfg with retentionMode := "persistent" } now st
    ∧ (cfg.retentionDays ≤ 0 → cfg.maxSessions ≤ 0 →
        pruneStore { cfg with retentionMode := "session" } now st = st
        ∧ openStore { cfg with retentionMode := "session" } now st = st)
    ∧ sessionLive
        (AppendSession { cfg with retentionMode := "session" } now st sid actor
          priv).sessions sid = true
    ∧ (∀ st', AppendEvent { cfg with retentionMode := "session" } now st evt
          = some st' → st'.events.length = st.events.length + 1) := by
  refine ⟨rfl, ?_, ?_, ?_⟩
  · intro hd hc
    have hd' : ¬ (0 : Int) < cfg.retentionDays := by omega
    have hc' : ¬ (0 : Int) < cfg.maxSessions := by omega
    constructor <;> simp [pruneStore, openStore, hd', hc']
  · by_cases hl : sessionLive st.sessions sid = true
    · have hpres := sessionLive_map_preserve st.sessions
        (updateSessionRow sid actor priv) sid
        (fun r => (updateSessionRow_fields sid actor priv r).1)
      simp [AppendSession, hl, hpres]
    · simp only [Bool.not_eq_true] at hl
      simp only [AppendSession, hl]
      simp [sessionLive, List.any_append]
  · intro st' h
    by_cases hl : sessionLive st.sessions evt.sessionId = true
    · simp only [AppendEvent, hl] at h
      simp at h
      subst h
      simp
    · simp only [Bool.not_eq_true] at hl
      simp [AppendEvent, hl] at h

/-- Witness for claim C4 at a concrete state: with retention_days = 0
and max_sessions = 0 the session-mode Prune leaves the store unchanged,
and an appended session is live. -/
theorem claim_C4_session_mode_retention_witness :
    (pruneStore ⟨"d.db", "session", 0, 0⟩ 5
        (StoreState.mk [⟨"s", "a", "p", 1⟩] [] 0)
      = StoreState.mk [⟨"s", "a", "p", 1⟩] [] 0)
    ∧ sessionLive
        (AppendSession ⟨"d.db", "session", 0, 0⟩ 5
          (StoreState.mk [⟨"s", "a", "p", 1⟩] [] 0) "s2" "a2" "p2").sessions
        "s2" = true := by
  refine ⟨?_, ?_⟩
  · exact ((claim_C4_session_mode_retention ⟨"d.db", "x", 0, 0⟩ 5
      (StoreState.mk [⟨"s", "a", "p", 1⟩] [] 0)
      "s2" "a2" "p2" ⟨"s", "", "", "t", "", "p", none⟩).2.1
        (by decide) (by decide)).1
  · exact (claim_C4_session_mode_retention ⟨"d.db", "x", 0, 0⟩ 5
      (StoreState.mk [⟨"s", "a", "p", 1⟩] [] 0)
      "s2" "a2" "p2" ⟨"s", "", "", "t", "", "p", none⟩).2.2.1

/-- Claim C5 (amended): Prune deletes whole sessions — those older than
the retention window or in excess of the max_sessions cap, keeping the
sessions with the newest created_at — cascading to their events; in
addition, when retention_days > 0, it deletes every individual event
whose own created_at is older than the cutoff even when that event's
session is retained.  A session is retained iff its created_at is
within the window and fewer than max_sessions in-window sessions are
strictly newer; an event is retained iff its own created_at is within
the window and its session is retained. -/
theorem claim_C5_prune_characterization (cfg : EventStoreConfig) (now : Int)
    (st : StoreState) (hm : cfg.retentionMode = "persistent")
    (hd : 0 < cfg.retentionDays) (hc : 0 < cfg.maxSessions) :
    (∀ r, r ∈ (pruneStore cfg now st).sessions ↔
        (r ∈ st.sessions ∧ pruneCutoff cfg now ≤ r.createdAt ∧
          (((st.sessions.filter fun x =>
              decide (pruneCutoff cfg now ≤ x.createdAt)
                && decide (r.createdAt < x.createdAt)).length : Int)
            < cfg.maxSessions)))
    ∧ (pruneStore cfg now st).events
        = st.events.filter (fun e =>
            decide (pruneCutoff cfg now ≤ e.createdAt)
              && sessionLive (pruneStore cfg now st).sessions e.sessionId) := by
  have hps : pruneStore cfg now st
      = pruneByCap cfg.maxSessions (pruneByDays (pruneCutoff cfg now) st) := by
    unfold pruneStore
    rw [hm]
    simp [hd, hc]
  constructor
  · intro r
    rw [hps]
    simp only [pruneByCap, pruneByDays, List.mem_filter, keptByCap]
    constructor
    · rintro ⟨⟨hmem, hwnd⟩, hkept⟩
      refine ⟨hmem, by simpa using hwnd, ?_⟩
      rw [filter_filter_comb] at hkept
      simpa using hkept
    · rintro ⟨hmem, hwnd, hkept⟩
      refine ⟨⟨hmem, by simpa using hwnd⟩, ?_⟩
      rw [filter_filter_comb]
      simpa using hkept
  · rw [hps]
    simp only [pruneByCap, pruneByDays, cascadeEvents]
    rw [filter_filter_comb, filter_filter_comb]
    apply List.filter_congr
    intro e _
    set wndP := fun x : SessionRow => decide (pruneCutoff cfg now ≤ x.createdAt)
      with hwndP
    cases h2 : sessionLive
        ((st.sessions.filter wndP).filter
          (keptByCap cfg.maxSessions (st.sessions.filter wndP)))
        e.sessionId with
    | false => simp [h2]
    | true =>
      have h1 : sessionLive (st.sessions.filter wndP) e.sessionId = true :=
        sessionLive_filter_true _ _ _ h2
      simp [h1, h2]

/-- Witness for claim C5 at a concrete store: one in-window session
with an out-of-window event; the characterization evaluates. -/
theorem claim_C5_prune_characterization_witness :
    (pruneStore ⟨"d.db", "persistent", 1, 1⟩ 172800
        (StoreState.mk [⟨"s", "a", "p", 100000⟩]
          [⟨0, "s", "", "", "note", "", "", 10⟩] 1)).events
      = (StoreState.mk [⟨"s", "a", "p", 100000⟩]
          [⟨0, "s", "", "", "note", "", "", 10⟩] 1).events.filter (fun e =>
          decide (pruneCutoff ⟨"d.db", "persistent", 1, 1⟩ 172800
              ≤ e.createdAt)
            && sessionLive (pruneStore ⟨"d.db", "persistent", 1, 1⟩ 172800
                (StoreState.mk [⟨"s", "a", "p", 100000⟩]
                  [⟨0, "s", "", "", "note", "", "", 10⟩] 1)).sessions
              e.sessionId) :=
  (claim_C5_prune_characterization ⟨"d.db", "persistent", 1, 1⟩ 172800
    (StoreState.mk [⟨"s", "a", "p", 100000⟩]
      [⟨0, "s", "", "", "note", "", "", 10⟩] 1) rfl (by decide) (by decide)).2

/-- A store transformation that touches only session-row fields (used
to factor the ON CONFLICT DO UPDATE of AppendSession). -/
def mapSessions (f : SessionRow → SessionRow) (st : StoreState) : StoreState :=
  { st with sessions := st.sessions.map f }

theorem cascade_map (f : SessionRow → SessionRow)
    (hf : ∀ r, (f r).sessionId = r.sessionId) (ss : List SessionRow)
    (evs : List EventRow) :
    cascadeEvents (ss.map f) evs = cascadeEvents ss evs := by
  unfold cascadeEvents
  apply List.filter_congr
  intro e _
  rw [sessionLive_map_preserve ss f e.sessionId hf]

theorem keptByCap_map (f : SessionRow → SessionRow)
    (hf2 : ∀ r, (f r).createdAt = r.createdAt) (m : Int)
    (ss : List SessionRow) (x : SessionRow) :
    keptByCap m (ss.map f) (f x) = keptByCap m ss x := by
  unfold keptByCap
  rw [hf2 x]
  rw [filter_map_congr ss f
    (fun y => decide (x.createdAt < y.createdAt))
    (fun y => decide (x.createdAt < y.createdAt))
    (fun y => by simp [hf2 y])]
  rw [List.length_map]

theorem pruneByDays_mapSessions (f : SessionRow → SessionRow)
    (hf : ∀ r, (f r).sessionId = r.sessionId)
    (hf2 : ∀ r, (f r).createdAt = r.createdAt) (cutoff : Int)
    (st : StoreState) :
    pruneByDays cutoff (mapSessions f st)
      = mapSessions f (pruneByDays cutoff st) := by
  unfold pruneByDays mapSessions
  simp only
  rw [filter_map_congr st.sessions f
      (fun r => decide (cutoff ≤ r.createdAt))
      (fun r => decide (cutoff ≤ r.createdAt))
      (fun y => by simp [hf2 y]),
    cascade_map f hf]

theorem pruneByCap_mapSessions (f : SessionRow → SessionRow)
    (hf : ∀ r, (f r).sessionId = r.sessionId)
    (hf2 : ∀ r, (f r).createdAt = r.createdAt) (m : Int) (st : StoreState) :
    pruneByCap m (mapSessions f st) = mapSessions f (pruneByCap m st) := by
  unfold pruneByCap mapSessions
  simp only
  rw [filter_map_congr st.sessions f
      (keptByCap m (st.sessions.map f)) (keptByCap m st.sessions)
      (fun y => keptByCap_map f hf2 m st.sessions y),
    cascade_map f hf]

theorem pruneStore_mapSessions (f : SessionRow → SessionRow)
    (hf : ∀ r, (f r).sessionId = r.sessionId)
    (hf2 : ∀ r, (f r).createdAt = r.createdAt) (cfg : EventStoreConfig)
    (now : Int) (st : StoreState) :
    pruneStore cfg now (mapSessions f st)
      = mapSessions f (pruneStore cfg now st) := by
  unfold pruneStore
  by_cases h1 : (cfg.retentionMode == "ephemeral") = true
  · simp [h1]
  · by_cases h2 : (!(cfg.retentionMode == "persistent")
        && !(cfg.retentionMode == "session")) = true
    · simp [h1, h2]
    · by_cases h3 : (0 : Int) < cfg.retentionDays <;>
        by_cases h4 : (0 : Int) < cfg.maxSessions <;>
          simp [h1, h2, h3, h4, pruneByDays_mapSessions f hf hf2,
            pruneByCap_mapSessions f hf hf2]

/-- Claim C10: upserting an existing audit session changes only the
actor_id and privacy_scope columns — the session ids, the creation
timestamps and the events are untouched — and consequently Prune makes
the same retention decisions before and after the upsert: the surviving
(session id, created_at) pairs and the surviving events are
identical. -/
theorem claim_C10_upsert_keeps_created_at (cfg : EventStoreConfig)
    (now2 nowP : Int) (st : StoreState) (sid actor priv : String)
    (hmode : (cfg.retentionMode == "ephemeral") = false)
    (hlive : sessionLive st.sessions sid = true) :
    ((AppendSession cfg now2 st sid actor priv).sessions.map
        fun r => (r.sessionId, r.createdAt))
        = (st.sessions.map fun r => (r.sessionId, r.createdAt))
    ∧ (AppendSession cfg now2 st sid actor priv).events = st.events
    ∧ (∀ r, r ∈ (AppendSession cfg now2 st sid actor priv).sessions →
        r.sessionId = sid → r.actorId = actor ∧ r.privacyScope = priv)
    ∧ ((pruneStore cfg nowP (AppendSession cfg now2 st sid actor priv)).sessions.map
          fun r => (r.sessionId, r.createdAt))
        = ((pruneStore cfg nowP st).sessions.map
          fun r => (r.sessionId, r.createdAt))
    ∧ (pruneStore cfg nowP (AppendSession cfg now2 st sid actor priv)).events
        = (pruneStore cfg nowP st).events := by
  have hu1 : ∀ r, (updateSessionRow sid actor priv r).sessionId = r.sessionId :=
    fun r => (updateSessionRow_fields sid actor priv r).1
  have hu2 : ∀ r, (updateSessionRow sid actor priv r).createdAt = r.createdAt :=
    fun r => (updateSessionRow_fields sid actor priv r).2
  have hstep : AppendSession cfg now2 st sid actor priv
      = mapSessions (updateSessionRow sid actor priv) st := by
    simp [AppendSession, hmode, hlive, mapSessions]
  refine ⟨?_, ?_, ?_, ?_, ?_⟩
  · rw [hstep]
    unfold mapSessions
    simp only [List.map_map]
    apply List.map_congr_left
    intro x _
    simp [Function.comp, hu1 x, hu2 x]
  · rw [hstep]; rfl
  · intro r hr hrs
    rw [hstep] at hr
    obtain ⟨x, hx, rfl⟩ := List.mem_map.mp hr
    by_cases hxx : (x.sessionId == sid) = true
    · constructor <;> simp [updateSessionRow, hxx]
    · exfalso
      have hxs : x.sessionId = sid := by rw [← hu1 x]; exact hrs
      exact hxx (beq_iff_eq.mpr hxs)
  · rw [hstep,
      pruneStore_mapSessions (updateSessionRow sid actor priv) hu1 hu2 cfg nowP st]
    unfold mapSessions
    simp only [List.map_map]
    apply List.map_congr_left
    intro x _
    simp [Function.comp, hu1 x, hu2 x]
  · rw [hstep,
      pruneStore_mapSessions (updateSessionRow sid actor priv) hu1 hu2 cfg nowP st]
    rfl

/-- Witness for claim C10 at a concrete store: re-appending session s1
with a new actor keeps the (id, created_at) pairs, and pruning after
the upsert evicts the same events as before it. -/
theorem claim_C10_upsert_keeps_created_at_witness :
    ((AppendSession ⟨"d.db", "session", 1, 1⟩ 999
        (StoreState.mk [⟨"s1", "a", "p", 100⟩] [] 0)
        "s1" "b" "q").sessions.map fun r => (r.sessionId, r.createdAt))
      = ((StoreState.mk [⟨"s1", "a", "p", 100⟩] [] 0).sessions.map
          fun r => (r.sessionId, r.createdAt))
    ∧ (pruneStore ⟨"d.db", "session", 1, 1⟩ 200000
        (AppendSession ⟨"d.db", "session", 1, 1⟩ 999
          (StoreState.mk [⟨"s1", "a", "p", 100⟩] [] 0) "s1" "b" "q")).events
      = (pruneStore ⟨"d.db", "session", 1, 1⟩ 200000
          (StoreState.mk [⟨"s1", "a", "p", 100⟩] [] 0)).events := by
  refine ⟨?_, ?_⟩
  · exact (claim_C10_upsert_keeps_created_at ⟨"d.db", "session", 1, 1⟩ 999
      200000 (StoreState.mk [⟨"s1", "a", "p", 100⟩] [] 0) "s1" "b" "q"
      (by decide) (by decide)).1
  · exact (claim_C10_upsert_keeps_created_at ⟨"d.db", "session", 1, 1⟩ 999
      200000 (StoreState.mk [⟨"s1", "a", "p", 100⟩] [] 0) "s1" "b" "q"
      (by decide) (by decide)).2.2.2.2
